import Mathlib

/-!
Verification of `c_trampoline` (pico_cpp_trampoline).

A shallow embedding of `src/c_trampoline.hpp`: the per-arity Thumb opcode
tables (`AsmCode<Count>::code`), the packed object layout
`[asm_code][self][method]`, the operations (`construct`, `set_method`,
`get_method`, the callback-pointer accessors), the compile-time signature
constraints (`FitsInRegister`, `VoidReturn`, `NotTooManyArgs` and the
`requires` clause), and an interpreter for the ARMv6-M Thumb subset the
generated code uses (`mov` register, `ldr` literal, `bx`, `nop`), faithful
to each instruction's encoding and to Thumb PC-relative addressing
(the load base is the address of the current instruction plus 4, rounded
down to a 4-byte boundary).

Machine words are `Nat` taken modulo 2^32 where it matters; memory is the
byte list the packed struct occupies, addressed relative to the (4-byte
aligned) start of the code block.
-/

namespace CTrampoline

/-- Round an address down to a 4-byte boundary (Thumb `Align(x, 4)`). -/
def align4 (n : Nat) : Nat := n / 4 * 4

/-- The four little-endian bytes of the 32-bit word `w % 2^32`. -/
def toBytes4 (w : Nat) : List Nat :=
  [w % 256, w / 256 % 256, w / 65536 % 256, w / 16777216 % 256]

/-- Reassemble what `toBytes4` stored: equals `w % 2^32` (`restore32_mod`). -/
def restore32 (w : Nat) : Nat :=
  w % 256 + 256 * (w / 256 % 256) + 65536 * (w / 65536 % 256) +
    16777216 * (w / 16777216 % 256)

/-- Element of a list at an index. -/
def nth : List Nat → Nat → Option Nat
  | [], _ => none
  | b :: _, 0 => some b
  | _ :: rest, n + 1 => nth rest n

/-- The byte table of `AsmCode<Count>::code` for each argument count,
exactly as written in `src/c_trampoline.hpp` (an arity outside 0..3 has no
instantiation, so it gets the empty table). -/
def asmCodeBytes : Nat → List Nat
  | 0 => [0x01, 0x48, 0x01, 0x4B, 0x18, 0x47, 0x00, 0xBF]
  | 1 => [0x01, 0x46, 0x01, 0x48, 0x01, 0x4B, 0x18, 0x47]
  | 2 => [0x0A, 0x46, 0x01, 0x46, 0x01, 0x48, 0x02, 0x4B, 0x18, 0x47, 0x00, 0xBF]
  | 3 => [0x13, 0x46, 0x0A, 0x46, 0x01, 0x46, 0x01, 0x48, 0x84, 0x46, 0x01, 0x48,
          0x60, 0x47, 0x00, 0xBF]
  | _ => []

/-- `sizeof(AsmCode<n>)`: byte length of the generated code block. -/
def codeLen (n : Nat) : Nat := (asmCodeBytes n).length

/-- A pointer-to-member-function value: on the 32-bit ARM EABI it is two
32-bit words (the function address word and the adjustment word), 8 bytes
in all. -/
structure member_function_pointer where
  word0 : Nat
  word1 : Nat

/-- The state of a `c_trampoline<T, R, Args...>` object: which `AsmCode`
table was selected (`arity = sizeof...(Args)`), and the two data fields the
constructor writes after it. -/
structure c_trampoline where
  arity : Nat
  self : Nat
  method : member_function_pointer

/-- The constructor `c_trampoline(T& self, member_function_pointer method)`:
stores the address of the bound object and the method pointer. -/
def construct (n selfAddr : Nat) (m : member_function_pointer) : c_trampoline :=
  { arity := n, self := selfAddr, method := m }

/-- `set_method(new_method)`: `method = new_method;`. -/
def set_method (t : c_trampoline) (m : member_function_pointer) : c_trampoline :=
  { t with method := m }

/-- `get_method()`: `return method;`. -/
def get_method (t : c_trampoline) : member_function_pointer := t.method

/-- The bytes the packed object occupies, starting at the code block:
`[asm_code][self][method]`, with no padding (`__attribute__((__packed__))`). -/
def layoutBytes (t : c_trampoline) : List Nat :=
  asmCodeBytes t.arity ++
    (toBytes4 t.self ++ (toBytes4 t.method.word0 ++ toBytes4 t.method.word1))

/-- Little-endian 32-bit load of the 4 bytes at address `a`. -/
def readWord (bytes : List Nat) (a : Nat) : Option Nat :=
  match nth bytes a, nth bytes (a + 1), nth bytes (a + 2), nth bytes (a + 3) with
  | some b0, some b1, some b2, some b3 =>
      some (b0 + 256 * b1 + 65536 * b2 + 16777216 * b3)
  | _, _, _, _ => none

/-- Little-endian 16-bit instruction fetch at address `p`. -/
def halfwordAt (bytes : List Nat) (p : Nat) : Option Nat :=
  match nth bytes p, nth bytes (p + 1) with
  | some lo, some hi => some (lo + 256 * hi)
  | _, _ => none

/-- The ARMv6-M Thumb instructions the opcode tables use. -/
inductive Instr where
  | movReg (rd rm : Nat)
  | ldrLit (rd imm8 : Nat)
  | bx (rm : Nat)
  | nop

/-- Decode a 16-bit Thumb halfword:
`01001 Rt imm8` is LDR (literal), `01000110 D Rm rd` is MOV (register),
`010001110 Rm 000` is BX, `0xBF00` is NOP. -/
def decode (hw : Nat) : Option Instr :=
  if hw / 2048 = 9 then some (Instr.ldrLit (hw / 256 % 8) (hw % 256))
  else if hw / 256 = 70 then some (Instr.movReg (hw / 128 % 2 * 8 + hw % 8) (hw / 8 % 16))
  else if hw / 128 = 142 ∧ hw % 8 = 0 then some (Instr.bx (hw / 8 % 16))
  else if hw = 48896 then some Instr.nop
  else none

/-- A register file: register index to 32-bit value. -/
def Regs : Type := Nat → Nat

/-- Write one register. -/
def setReg (regs : Regs) (rd v : Nat) : Regs :=
  fun j => if j = rd then v else regs j

/-- The AAPCS entry state for a call with the given argument list:
argument `k` arrives in register `r k`; other registers hold an arbitrary
value, taken to be 0. -/
def initRegs (args : List Nat) : Regs :=
  fun i => (nth args i).getD 0

/-- Execute the code block from program counter `pc` (a byte offset from the
start of the code block) until the first `bx`, which ends the trampoline's
execution: `bx r` is an unconditional branch, so the result is the branch
target together with the register file at that moment and the list of
data-load addresses performed on the way. An LDR (literal) at `pc` loads the
word at `Align(pc + 4, 4) + 4 * imm8`: in Thumb the PC reads as the
instruction's address plus 4, aligned down to the 4-byte pair. -/
def runT (t : c_trampoline) : Nat → Regs → Nat → List Nat → Option (Nat × Regs × List Nat)
  | 0, _, _, _ => none
  | fuel + 1, regs, pc, reads =>
    match halfwordAt (asmCodeBytes t.arity) pc with
    | none => none
    | some hw =>
      match decode hw with
      | none => none
      | some (Instr.movReg rd rm) => runT t fuel (setReg regs rd (regs rm)) (pc + 2) reads
      | some (Instr.ldrLit rd imm8) =>
        match readWord (layoutBytes t) (align4 (pc + 4) + 4 * imm8) with
        | none => none
        | some v =>
            runT t fuel (setReg regs rd v) (pc + 2)
              (reads ++ [align4 (pc + 4) + 4 * imm8])
      | some (Instr.bx rm) => some (regs rm, regs, reads)
      | some Instr.nop => runT t fuel regs (pc + 2) reads

/-- The first `n` registers, as the callee sees its receiver and arguments:
`[r0, r1, ..., r(n-1)]`. -/
def argRegsList (n : Nat) (regs : Regs) : List Nat :=
  (List.range n).map regs

/-- Invoke the callback: start at the beginning of the code block with the
C-side arguments in `r0..`, run to the terminating `bx`. Yields the branch
target, the registers `r0..r(arity)` the target receives (receiver slot plus
the forwarded arguments), and the addresses of the data loads performed. -/
def invokeFull (t : c_trampoline) (args : List Nat) : Option (Nat × List Nat × List Nat) :=
  match runT t 9 (initRegs args) 0 [] with
  | none => none
  | some (target, regs, reads) => some (target, argRegsList (t.arity + 1) regs, reads)

/-- `invokeFull` without the load trace: branch target and received registers. -/
def invokeCall (t : c_trampoline) (args : List Nat) : Option (Nat × List Nat) :=
  match invokeFull t args with
  | none => none
  | some (target, rs, _) => some (target, rs)

/-- Every instruction of a code block with its byte position. -/
def decodeAll (bytes : List Nat) : List (Nat × Instr) :=
  (List.range (bytes.length / 2)).filterMap fun k =>
    match halfwordAt bytes (2 * k) with
    | none => none
    | some hw =>
      match decode hw with
      | none => none
      | some i => some (2 * k, i)

/-- Each LDR (literal) of the arity-`n` code block, as
`(its byte position p, the address it loads)` with the address written with
the base `align4 p + 4`: the following aligned 4-byte instruction pair. -/
def ldrLoadOffsets (n : Nat) : List (Nat × Nat) :=
  (decodeAll (asmCodeBytes n)).filterMap fun pi =>
    match pi.2 with
    | Instr.ldrLit _ imm8 => some (pi.1, align4 pi.1 + 4 + 4 * imm8)
    | _ => none

/-- As `ldrLoadOffsets`, but with the address written exactly as the
interpreter `runT` computes it: base `align4 (p + 4)`. -/
def ldrLoadOffsetsRun (n : Nat) : List (Nat × Nat) :=
  (decodeAll (asmCodeBytes n)).filterMap fun pi =>
    match pi.2 with
    | Instr.ldrLit _ imm8 => some (pi.1, align4 (pi.1 + 4) + 4 * imm8)
    | _ => none

/-- Sum of a list of byte sizes. -/
def sumList : List Nat → Nat
  | [] => 0
  | a :: rest => a + sumList rest

/-- The byte sizes of the three members of the packed struct, in declaration
order: `AsmCode<n> asm_code`, `T* const self` (4 bytes on ARM32),
`member_function_pointer method` (8 bytes on the ARM EABI). -/
def fieldSizes (n : Nat) : List Nat := [codeLen n, 4, 8]

/-- Byte offset of member `i` in the packed struct: with
`__attribute__((__packed__))` each member starts where the previous one
ends. -/
def fieldOffset (n i : Nat) : Nat := sumList ((fieldSizes n).take i)

/-- Total byte size of the packed struct. -/
def struct_size (n : Nat) : Nat := sumList (fieldSizes n)

/-- The alignment `__attribute__((aligned(4)))` demands for the code array,
hence for the start of the object. -/
def code_alignment : Nat := 4

/-- Byte offset of the `asm_code` member. -/
def asm_code_offset (n : Nat) : Nat := fieldOffset n 0

/-- `operator function_pointer()`: numeric value of
`(uint8_t*)asm_code + 1` for an object whose storage starts at `base`
(plus one keeps the processor in Thumb mode). -/
def operator_function_pointer (n base : Nat) : Nat := base + asm_code_offset n + 1

/-- `get_callback()`: same body as the conversion operator. -/
def get_callback (n base : Nat) : Nat := base + asm_code_offset n + 1

/-! ## The compile-time signature constraints -/

/-- A C++ type in return position, abstracted to what the constraints can
see: whether it is `void`, and its `sizeof` when it has one. Only types
that are legal function return types can appear in a method signature, and
every `RetType` stands for such a type. -/
structure RetType where
  isVoid : Bool
  size : Nat

/-- A method signature `R (T::*)(Args...)`: the return type and the
`sizeof` of each argument type. -/
structure MethodSig where
  ret : RetType
  argSizes : List Nat

/-- The concept `FitsInRegister`: `sizeof(T) <= 4`. -/
def FitsInRegister (size : Nat) : Prop := size ≤ 4

/-- The concept `NotTooManyArgs<Count, Args...>`: `sizeof...(Args) <= Count`. -/
def NotTooManyArgs (count : Nat) (argSizes : List Nat) : Prop :=
  argSizes.length ≤ count

/-- The concept `VoidReturn<T>`, exactly as the source defines it:
`requires (T (*x)()) \x7b x(); \x7d`. The requirement is that the call
expression `x()` be valid for a parameter `x` of type `T (*)()`; that holds
for every `T` that is a legal function return type, whether or not `T` is
`void` (the call is valid as a discarded-value expression). Since every
`RetType` here stands for a legal return type, the concept is satisfied
unconditionally. -/
def VoidReturn (_ : RetType) : Prop := True

/-- The atomic constraint `sizeof(R) <= 8`: for `R = void` the expression
`sizeof(R)` is ill-formed, so the atomic constraint is not satisfied; for
any other type it compares the size. -/
def sizeofAtMost8 (r : RetType) : Prop := r.isVoid = false ∧ r.size ≤ 8

/-- The template's whole acceptance condition: the constrained parameter
pack `FitsInRegister... Args` plus the clause
`requires ((sizeof(R) <= 8) || VoidReturn<R>) && NotTooManyArgs<3, Args...>`. -/
def acceptedByCode (s : MethodSig) : Prop :=
  (∀ a ∈ s.argSizes, FitsInRegister a) ∧
    (sizeofAtMost8 s.ret ∨ VoidReturn s.ret) ∧ NotTooManyArgs 3 s.argSizes

/-- The acceptance condition claimed by the specification: every argument in
one 4-byte register slot, at most 3 forwarded arguments, and a return type
at most 8 bytes wide or `void`. -/
def acceptedPerSpec (s : MethodSig) : Prop :=
  (∀ a ∈ s.argSizes, a ≤ 4) ∧ s.argSizes.length ≤ 3 ∧
    (s.ret.size ≤ 8 ∨ s.ret.isVoid = true)

/-- The layout invariant: the object's bytes start with the selected code
block, the self word sits right after it, the two method words right after
that, and nothing else: code, then 4 bytes of self, then 8 bytes of method. -/
def layoutWellFormed (t : c_trampoline) : Prop :=
  (layoutBytes t).take (codeLen t.arity) = asmCodeBytes t.arity ∧
  readWord (layoutBytes t) (codeLen t.arity) = some (t.self % 4294967296) ∧
  readWord (layoutBytes t) (codeLen t.arity + 4) = some (t.method.word0 % 4294967296) ∧
  readWord (layoutBytes t) (codeLen t.arity + 8) = some (t.method.word1 % 4294967296) ∧
  (layoutBytes t).length = struct_size t.arity

/-! ## Helper lemmas -/

lemma restore32_mod (w : Nat) : restore32 w = w % 4294967296 := by
  unfold restore32
  omega

lemma readWord_cons (b : Nat) (l : List Nat) (i : Nat) :
    readWord (b :: l) (i + 1) = readWord l i := rfl

lemma readWord_after (A X : List Nat) (k : Nat) :
    readWord (A ++ X) (A.length + k) = readWord X k := by
  induction A with
  | nil => rw [List.nil_append, List.length_nil, Nat.zero_add]
  | cons a rest ih =>
      rw [List.cons_append, List.length_cons, Nat.add_right_comm, readWord_cons, ih]

lemma readWord_bytes0 (w : Nat) (Y : List Nat) :
    readWord (toBytes4 w ++ Y) 0 = some (restore32 w) := rfl

lemma readWord_last (w : Nat) : readWord (toBytes4 w) 0 = some (restore32 w) := rfl

lemma readWord_skip4 (w : Nat) (Y : List Nat) (k : Nat) :
    readWord (toBytes4 w ++ Y) (k + 4) = readWord Y k := rfl

lemma layout_words (t : c_trampoline) :
    readWord (layoutBytes t) (codeLen t.arity) = some (restore32 t.self) ∧
    readWord (layoutBytes t) (codeLen t.arity + 4) = some (restore32 t.method.word0) ∧
    readWord (layoutBytes t) (codeLen t.arity + 8) = some (restore32 t.method.word1) := by
  have h0 := readWord_after (asmCodeBytes t.arity)
    (toBytes4 t.self ++ (toBytes4 t.method.word0 ++ toBytes4 t.method.word1)) 0
  have h4 := readWord_after (asmCodeBytes t.arity)
    (toBytes4 t.self ++ (toBytes4 t.method.word0 ++ toBytes4 t.method.word1)) 4
  have h8 := readWord_after (asmCodeBytes t.arity)
    (toBytes4 t.self ++ (toBytes4 t.method.word0 ++ toBytes4 t.method.word1)) 8
  rw [Nat.add_zero] at h0
  refine ⟨h0.trans (readWord_bytes0 _ _), h4.trans ?_, h8.trans ?_⟩
  · exact (readWord_skip4 t.self _ 0).trans (readWord_bytes0 _ _)
  · exact (readWord_skip4 t.self _ 4).trans
      ((readWord_skip4 t.method.word0 _ 0).trans (readWord_last _))

lemma take_len (A X : List Nat) : (A ++ X).take A.length = A := by
  induction A with
  | nil => rfl
  | cons a rest ih => rw [List.cons_append, List.length_cons, List.take_succ_cons, ih]

lemma length_layout (t : c_trampoline) : (layoutBytes t).length = codeLen t.arity + 12 := by
  show (asmCodeBytes t.arity ++
      (toBytes4 t.self ++ (toBytes4 t.method.word0 ++ toBytes4 t.method.word1))).length =
    codeLen t.arity + 12
  rw [List.length_append, List.length_append, List.length_append]
  rfl

lemma codeLen_mod4 (k : Nat) : codeLen k % 4 = 0 := by
  match k with
  | 0 => rfl
  | 1 => rfl
  | 2 => rfl
  | 3 => rfl
  | _ + 4 => rfl

lemma layoutWF (t : c_trampoline) : layoutWellFormed t :=
  ⟨take_len (asmCodeBytes t.arity)
     (toBytes4 t.self ++ (toBytes4 t.method.word0 ++ toBytes4 t.method.word1)),
   (layout_words t).1.trans (congrArg some (restore32_mod t.self)),
   (layout_words t).2.1.trans (congrArg some (restore32_mod t.method.word0)),
   (layout_words t).2.2.trans (congrArg some (restore32_mod t.method.word1)),
   length_layout t⟩

/-! ## The claims -/

/-- C1: the claim states that for every arity 0 to 3 and register-width
arguments, invoking the callback performs exactly one call of the bound
method with the bound object first and the arguments unchanged in order.
The code refutes it: the arity-0 block branches to the bound object's
address itself (its method load encodes `ldr r3, [pc, #4]`, byte 0x01,
reading the self word at offset 8, where its own comment says
`ldr r3, [pc, #8]`, the method word at offset 12), and the arity-3 block
branches to the constant 0xBF004760 = 3204466528 assembled from its own
trailing code bytes (its method load encodes #4 where its comment says #12).
Arities 1 and 2 dispatch exactly as claimed. -/
theorem C1_invoke_dispatch :
    invokeCall (construct 0 536870912 ⟨268435969, 0⟩) [] =
      some (536870912, [536870912]) ∧
    (536870912 : Nat) ≠ 268435969 ∧
    invokeCall (construct 3 536870912 ⟨268435969, 0⟩) [11, 22, 33] =
      some (3204466528, [536870912, 11, 22, 33]) ∧
    (3204466528 : Nat) ≠ 268435969 ∧
    invokeCall (construct 1 536870912 ⟨268435969, 0⟩) [11] =
      some (268435969, [536870912, 11]) ∧
    invokeCall (construct 2 536870912 ⟨268435969, 0⟩) [11, 22] =
      some (268435969, [536870912, 11, 22]) :=
  ⟨rfl, by decide, rfl, by decide, rfl, rfl⟩

/-- C2: the claim states that in every arity's code block the self load
resolves to offset codeLen and the method load to codeLen + 4, each offset
recomputed from the instruction's own position with the one-pair-lookahead
base. The code refutes it: in the arity-0 block both loads resolve to 8, so
the method word at 12 = codeLen 0 + 4 is never addressed, and in the
arity-3 block the method load resolves to 12 - inside the code block -
instead of 20 = codeLen 3 + 4. Arities 1 and 2 match the claim. The final
four conjuncts record that the claim's base formula align4 p + 4 agrees
with the interpreter's Thumb base align4 (p + 4) on every load. -/
theorem C2_ldr_offsets :
    ldrLoadOffsets 0 = [(0, 8), (2, 8)] ∧ codeLen 0 + 4 = 12 ∧
    ldrLoadOffsets 1 = [(2, 8), (4, 12)] ∧ codeLen 1 + 4 = 12 ∧
    ldrLoadOffsets 2 = [(4, 12), (6, 16)] ∧ codeLen 2 + 4 = 16 ∧
    ldrLoadOffsets 3 = [(6, 12), (10, 16)] ∧ codeLen 3 + 4 = 20 ∧
    ldrLoadOffsetsRun 0 = ldrLoadOffsets 0 ∧
    ldrLoadOffsetsRun 1 = ldrLoadOffsets 1 ∧
    ldrLoadOffsetsRun 2 = ldrLoadOffsets 2 ∧
    ldrLoadOffsetsRun 3 = ldrLoadOffsets 3 :=
  ⟨rfl, rfl, rfl, rfl, rfl, rfl, rfl, rfl, rfl, rfl, rfl, rfl⟩

/-- C3: every instance is laid out as the code block, then the self pointer,
then the method field, contiguously with no padding: the packed member
offsets are the cumulative member sizes, the code block starts at offset 0
with the 4-byte alignment its attribute demands, and the layout holds at
construction and is preserved by set_method, the only mutating operation. -/
theorem C3_layout (n : Nat) (_hn : n < 4) (selfAddr : Nat)
    (m mNew : member_function_pointer) :
    fieldOffset n 0 = 0 ∧ fieldOffset n 1 = codeLen n ∧
    fieldOffset n 2 = codeLen n + 4 ∧ struct_size n = codeLen n + 12 ∧
    code_alignment = 4 ∧ codeLen n % code_alignment = 0 ∧
    layoutWellFormed (construct n selfAddr m) ∧
    layoutWellFormed (set_method (construct n selfAddr m) mNew) :=
  ⟨rfl, rfl, rfl, rfl, rfl, codeLen_mod4 n, layoutWF _, layoutWF _⟩

/-- Witness for C3 at arity 0 with concrete field values. -/
theorem C3_layout_witness :
    fieldOffset 0 0 = 0 ∧ fieldOffset 0 1 = codeLen 0 ∧
    fieldOffset 0 2 = codeLen 0 + 4 ∧ struct_size 0 = codeLen 0 + 12 ∧
    code_alignment = 4 ∧ codeLen 0 % code_alignment = 0 ∧
    layoutWellFormed (construct 0 536870912 ⟨268435969, 1⟩) ∧
    layoutWellFormed (set_method (construct 0 536870912 ⟨268435969, 1⟩) ⟨268436481, 2⟩) :=
  C3_layout 0 (by decide) 536870912 ⟨268435969, 1⟩ ⟨268436481, 2⟩

/-- C4: the byte length of the generated code block is 8, 8, 12 and 16 for
arities 0, 1, 2 and 3 - a pure function of the argument count, since the
byte table is selected by the count alone. -/
theorem C4_code_length :
    codeLen 0 = 8 ∧ codeLen 1 = 8 ∧ codeLen 2 = 12 ∧ codeLen 3 = 16 :=
  ⟨rfl, rfl, rfl, rfl⟩

/-- C5: the claim states a signature is accepted by the compile-time
constraints iff every argument fits one 4-byte register, at most 3
arguments are forwarded, and the return type is at most 8 bytes or void.
The code refutes the return-type bound: `VoidReturn` as written holds for
every legal return type, not only `void`, so the whole return constraint
`(sizeof(R) <= 8) || VoidReturn<R>` is vacuous and a non-void 16-byte
return type is accepted. The argument-side constraints do hold: an
oversized argument or a fourth argument is rejected, and in-bounds
signatures are accepted. -/
theorem C5_signature_constraints :
    acceptedByCode ⟨⟨false, 16⟩, []⟩ ∧ ¬ acceptedPerSpec ⟨⟨false, 16⟩, []⟩ ∧
    ¬ acceptedByCode ⟨⟨true, 1⟩, [8]⟩ ∧
    ¬ acceptedByCode ⟨⟨true, 1⟩, [4, 4, 4, 4]⟩ ∧
    acceptedByCode ⟨⟨true, 1⟩, [4, 4, 4]⟩ ∧
    acceptedByCode ⟨⟨false, 8⟩, [1]⟩ := by
  unfold acceptedByCode acceptedPerSpec FitsInRegister NotTooManyArgs sizeofAtMost8 VoidReturn
  refine ⟨⟨fun a ha => absurd ha (List.not_mem_nil a), Or.inr trivial, by decide⟩, ?_, ?_, ?_,
          ⟨by decide, Or.inr trivial, by decide⟩,
          ⟨by decide, Or.inl ⟨rfl, by decide⟩, by decide⟩⟩
  · exact fun h => h.2.2.elim (fun h16 => absurd h16 (by decide))
      (fun hb => Bool.noConfusion hb)
  · exact fun h => absurd (h.1 8 (List.Mem.head _)) (by decide)
  · exact fun h => absurd h.2.2 (by decide)

/-- C6: reading back through the public interface after construction and
before any set_method: get_method returns exactly the method pointer
supplied, and the bound object's address is stored exactly as supplied -
both as the self field and as the self word the code block addresses. -/
theorem C6_readback (n selfAddr : Nat) (m : member_function_pointer)
    (_hn : n < 4) (hs : selfAddr < 4294967296) :
    get_method (construct n selfAddr m) = m ∧
    (construct n selfAddr m).self = selfAddr ∧
    readWord (layoutBytes (construct n selfAddr m)) (codeLen n) = some selfAddr :=
  ⟨rfl, rfl,
   (layout_words (construct n selfAddr m)).1.trans
     (congrArg some ((restore32_mod selfAddr).trans (Nat.mod_eq_of_lt hs)))⟩

/-- Witness for C6 at arity 2 with a concrete object address. -/
theorem C6_readback_witness :
    get_method (construct 2 536870912 ⟨268435969, 5⟩) = ⟨268435969, 5⟩ ∧
    (construct 2 536870912 ⟨268435969, 5⟩).self = 536870912 ∧
    readWord (layoutBytes (construct 2 536870912 ⟨268435969, 5⟩)) (codeLen 2) =
      some 536870912 :=
  C6_readback 2 536870912 ⟨268435969, 5⟩ (by decide) (by decide)

/-- C7: the claim states that after set_method(M2) every invocation
dispatches to M2 with the same bound object, and M1 is never invoked again.
get_method does report the new binding, and for arity 1 the rebinding works
exactly as claimed; but the arity-0 block keeps branching to the bound
object's address no matter which method is bound, so on it no invocation
ever dispatches to M2. -/
theorem C7_set_method_rebind :
    get_method (set_method (construct 0 536870912 ⟨268435969, 0⟩) ⟨268436481, 0⟩) =
      ⟨268436481, 0⟩ ∧
    invokeCall (set_method (construct 0 536870912 ⟨268435969, 0⟩) ⟨268436481, 0⟩) [] =
      some (536870912, [536870912]) ∧
    (536870912 : Nat) ≠ 268436481 ∧
    invokeCall (set_method (construct 1 536870912 ⟨268435969, 0⟩) ⟨268436481, 0⟩) [7] =
      some (268436481, [536870912, 7]) ∧
    (268436481 : Nat) ≠ 268435969 :=
  ⟨rfl, rfl, by decide, rfl, by decide⟩

/-- C8: set_method writes only the method field: self and arity are
untouched, the new layout is the same code block and self bytes followed by
the new method words, and in particular every byte of the code block is the
same before and after the call. -/
theorem C8_set_method_frame (t : c_trampoline) (m : member_function_pointer) :
    (set_method t m).self = t.self ∧
    (set_method t m).arity = t.arity ∧
    get_method (set_method t m) = m ∧
    layoutBytes (set_method t m) =
      asmCodeBytes t.arity ++
        (toBytes4 t.self ++ (toBytes4 m.word0 ++ toBytes4 m.word1)) ∧
    layoutBytes t =
      asmCodeBytes t.arity ++
        (toBytes4 t.self ++ (toBytes4 t.method.word0 ++ toBytes4 t.method.word1)) ∧
    (layoutBytes (set_method t m)).take (codeLen t.arity) =
      (layoutBytes t).take (codeLen t.arity) :=
  ⟨rfl, rfl, rfl, rfl, rfl,
   (take_len (asmCodeBytes t.arity)
      (toBytes4 t.self ++ (toBytes4 m.word0 ++ toBytes4 m.word1))).trans
     (take_len (asmCodeBytes t.arity)
        (toBytes4 t.self ++ (toBytes4 t.method.word0 ++ toBytes4 t.method.word1))).symm⟩

/-- C9: the callback pointer returned by the conversion operator and by
get_callback is the code block's base storage address plus exactly 1 (the
Thumb mode bit): asm_code is the first member, at offset 0. Both accessors
are the same pure function of the instance's address, so every call on one
instance yields the identical value. -/
theorem C9_callback_pointer (n base : Nat) :
    operator_function_pointer n base = base + 1 ∧
    get_callback n base = base + 1 ∧
    operator_function_pointer n base = get_callback n base ∧
    asm_code_offset n = 0 :=
  ⟨rfl, rfl, rfl, rfl⟩

/-- C10: the claim states dispatch obtains its branch target by reading
exactly one 4-byte word at offset codeLen + 4 - the first word of the
method field - and reads no other method byte. The code refutes it: the
arity-0 block's loads are at offsets 8 and 8 (the word at
12 = codeLen 0 + 4 is never read; the branch target comes from the self
word), and the arity-3 block's loads are at 12 and 16 (never
20 = codeLen 3 + 4; its branch target comes from offset 12, inside the code
block). For arity 1 the loads are 8 and 12 exactly as claimed, and the
second method word is never read: changing it from 0 to the all-ones word
leaves the loads and the outcome identical. -/
theorem C10_method_word_reads :
    invokeFull (construct 0 536870912 ⟨268435969, 0⟩) [] =
      some (536870912, [536870912], [8, 8]) ∧
    codeLen 0 + 4 = 12 ∧ (12 : Nat) ∉ [8, 8] ∧
    invokeFull (construct 3 536870912 ⟨268435969, 0⟩) [11, 22, 33] =
      some (3204466528, [536870912, 11, 22, 33], [12, 16]) ∧
    codeLen 3 + 4 = 20 ∧ (20 : Nat) ∉ [12, 16] ∧
    invokeFull (construct 1 536870912 ⟨268435969, 0⟩) [7] =
      some (268435969, [536870912, 7], [8, 12]) ∧
    invokeFull (construct 1 536870912 ⟨268435969, 4294967295⟩) [7] =
      some (268435969, [536870912, 7], [8, 12]) :=
  ⟨rfl, rfl, by decide, rfl, rfl, by decide, rfl, rfl⟩

end CTrampoline
